import Mathlib

/-!
Verification of the data-proxy client-version resolver
(`packages/client/src/runtime/core/engines/data-proxy/utils/getClientVersion.ts`).

The resolver `_getClientVersion` is embedded as a pure Lean function.  Its
external collaborators are passed in explicitly:

* the process environment (the two variables the code reads) as an `Env`;
* the build-time engine version constant (`devDependencies['@prisma/engines-version']`)
  as a `String` parameter;
* the HTTP `request` primitive as a function `String → HttpResponse`
  (URL to response);
* the platform `JSON.parse` as a function `String → Option JsValue`
  (`none` models a thrown parse error).

The function returns the produced JavaScript value (or the thrown error)
together with the list of URLs it requested over the network, so that
"performs no network call" is the statement that this list is empty.
-/

/-- JavaScript `String.prototype.split` with a single-character separator,
on the character-list representation: splits on every occurrence of `sep`.
`splitChar sep [] = [[]]` matches JS `"".split(sep) = [""]`. -/
def splitChar (sep : Char) : List Char → List (List Char)
  | [] => [[]]
  | c :: cs =>
    if c == sep then [] :: splitChar sep cs
    else
      match splitChar sep cs with
      | [] => [[c]]
      | r :: rs => (c :: r) :: rs

/-- JS `s.split(sep)` for a string and a one-character separator. -/
def jsSplit (s : String) (sep : Char) : List String :=
  (splitChar sep s.data).map String.mk

/-- Line 20: `const [version, suffix] = clientVersion?.split('-') ?? []`.
Array destructuring takes the first two elements of the split result;
`suffix` is `undefined` (here `none`) when the array has fewer than two
elements, i.e. when the string has no hyphen. -/
def clientVersionSplit (clientVersion : String) : String × Option String :=
  let parts := jsSplit clientVersion '-'
  (parts.headD "", parts.get? 1)

/-- Decision procedure for the regex `^[1-9][0-9]*$` on a character list. -/
def majorDigits (l : List Char) : Bool :=
  match l with
  | [] => false
  | c :: cs => (c.isDigit && c != '0') && cs.all Char.isDigit

/-- Decision procedure for the regex `^[0-9]+$` on a character list. -/
def digits1 (l : List Char) : Bool :=
  !l.isEmpty && l.all Char.isDigit

/-- Line 8: `semverRegex = /^[1-9][0-9]*\.[0-9]+\.[0-9]+$/`, as the (test of
the) regex.  A string matches that anchored regex exactly when it consists of
three dot-separated groups, the first matching `[1-9][0-9]*` and the other
two matching `[0-9]+`; since none of the character classes contains a dot,
splitting on every dot into exactly three groups decides the match. -/
def semverRegexTest (s : String) : Bool :=
  match splitChar '.' s.data with
  | [a, b, c] => majorDigits a && digits1 b && digits1 c
  | _ => false

/-- The two environment variables the resolver reads (line 16 and line 31).
`none` means the variable is undefined in the process environment. -/
structure Env where
  prismaClientDataProxyClientVersion : Option String
  testDataProxy : Option String
deriving DecidableEq, Repr

/-- JS truthiness of `process.env.X` (line 16): an env var is a string, so
the value is truthy exactly when the variable is defined and non-empty. -/
def envTruthy (v : Option String) : Bool :=
  match v with
  | none => false
  | some s => !(s == "")

/-- The slice of `EngineConfig` the resolver uses: `config.clientVersion`
(optional, line 13). -/
structure EngineConfig where
  clientVersion : Option String
deriving DecidableEq, Repr

/-- A JavaScript value, as produced by `JSON.parse` and property access.
`undefined` is included because reading a missing property yields it
(line 73: `bodyAsJson['version']`). -/
inductive JsValue where
  | undefined : JsValue
  | null : JsValue
  | bool (b : Bool) : JsValue
  | num (n : Int) : JsValue
  | str (s : String) : JsValue
  | arr (elems : List JsValue) : JsValue
  | obj (fields : List (String × JsValue)) : JsValue
deriving Repr

/-- Lookup of the field named `k` in a JS object's field list, yielding
`undefined` when no such field exists. -/
def JsValue.objLookup (fields : List (String × JsValue)) (k : String) : JsValue :=
  match fields.find? (fun p => p.1 == k) with
  | some p => p.2
  | none => .undefined

/-- JS property access `v[k]` as used at line 73 (`bodyAsJson['version']`):
on a `null` or `undefined` receiver it throws a `TypeError` (modelled as
`none`; `null` is reachable there, since `JSON.parse` maps the body
`"null"` to `null`); on an object it yields the named field, or
`undefined` when no such field exists; on the remaining primitive and
array receivers it yields `undefined` (none of them has a `version`
property). -/
def JsValue.getField : JsValue → String → Option JsValue
  | .null, _ => none
  | .undefined, _ => none
  | .obj fields, k => some (JsValue.objLookup fields k)
  | _, _ => some .undefined

/-- The fields of the fetch `Response` the code consults: `status`,
`statusText` and the body text (`res.text()`). -/
structure HttpResponse where
  status : Nat
  statusText : String
  body : String
deriving DecidableEq, Repr

/-- Here `Response.ok` is derived per the WHATWG fetch standard: status in the range
200..299 (used at line 50: `if (!res.ok)`). -/
def HttpResponse.ok (r : HttpResponse) : Bool :=
  (200 ≤ r.status) && (r.status ≤ 299)

/-- The errors `_getClientVersion` can throw:
`notImplementedYet` is the `NotImplementedYetError` of line 77 (message and
the `clientVersion` it carries); `fetchFailed` is the `Error` thrown at
line 51 (status, status text, and the body text shown in the message, after
the `|| '<empty body>'` substitution); `jsonParseError` is the rethrown
`JSON.parse` error of line 70, carrying the body that failed to parse;
`typeError` is the `TypeError` thrown by the property access at line 73
when the parsed payload is `null`. -/
inductive ResolveError where
  | notImplementedYet (message : String) (clientVersion : String) : ResolveError
  | fetchFailed (status : Nat) (statusText : String) (bodyShown : String) : ResolveError
  | jsonParseError (body : String) : ResolveError
  | typeError : ResolveError
deriving DecidableEq, Repr

/-- The message of the `NotImplementedYetError` at line 77. -/
def unsupportedMessage : String :=
  "Only `major.minor.patch` versions are supported by Prisma Data Proxy."

/-- Uppercase hexadecimal digit. -/
def hexChar (n : Nat) : Char :=
  if n < 10 then Char.ofNat (48 + n) else Char.ofNat (65 + (n - 10))

/-- Percent-encoding of one byte, `%XX` with uppercase hex. -/
def pctEncodeByte (b : Nat) : List Char :=
  ['%', hexChar (b / 16), hexChar (b % 16)]

/-- UTF-8 encoding of one character, as its list of byte values. -/
def utf8Bytes (c : Char) : List Nat :=
  let v := c.toNat
  if v < 0x80 then [v]
  else if v < 0x800 then
    [0xC0 + v / 64, 0x80 + v % 64]
  else if v < 0x10000 then
    [0xE0 + v / 4096, 0x80 + v / 64 % 64, 0x80 + v % 64]
  else
    [0xF0 + v / 262144, 0x80 + v / 4096 % 64, 0x80 + v / 64 % 64, 0x80 + v % 64]

/-- The characters JS `encodeURI` leaves unescaped besides ASCII
alphanumerics: the URI reserved set, the unreserved marks, and `#`. -/
def encodeURIKeep : List Char :=
  [';', ',', '/', '?', ':', '@', '&', '=', '+', '$',
   '-', '_', '.', '!', '~', '*', '\'', '(', ')', '#']

/-- JS `encodeURI`: every character outside the kept set is replaced by the
percent-encoding of its UTF-8 bytes.  All kept characters are ASCII, so the
encoding can be computed per character. -/
def encodeURI (s : String) : String :=
  String.mk (s.data.foldr
    (fun c acc =>
      if c.isAlphanum && c.toNat < 128 || encodeURIKeep.contains c then c :: acc
      else (utf8Bytes c).foldr (fun b acc2 => pctEncodeByte b ++ acc2) acc)
    [])

/-- Lines 104..106: `prismaPkgURL(version) = encodeURI('https://unpkg.com/prisma@' + version + '/package.json')`. -/
def prismaPkgURL (version : String) : String :=
  encodeURI ("https://unpkg.com/prisma@" ++ version ++ "/package.json")

/-- Lines 33..34: the engine version constant split on `-` (keeping the
first part) and then on `.`, giving the destructured
`[major, minor, patch]` (each `none` when the destructuring position is
past the end of the array, i.e. JS `undefined`). -/
def engineMMP (engineVersion : String) : Option String × Option String × Option String :=
  let v := (jsSplit engineVersion '-').headD ""
  let parts := jsSplit v '.'
  (parts.get? 0, parts.get? 1, parts.get? 2)

/-- JS template-literal interpolation of a possibly-`undefined` string. -/
def jsStr (o : Option String) : String :=
  o.getD "undefined"

/-- Line 47: the URL the fallback path requests,
`prismaPkgURL('<=' + major + '.' + minor + '.' + patch)` for the engine
constant's destructured components. -/
def fallbackURL (engineVersion : String) : String :=
  let mmp := engineMMP engineVersion
  prismaPkgURL ("<=" ++ jsStr mmp.1 ++ "." ++ jsStr mmp.2.1 ++ "." ++ jsStr mmp.2.2)

/-- Lines 29..74: the fallback path of `_getClientVersion`, entered when a
suffix is present or `clientVersion === '0.0.0'`.  Returns the produced
value (or thrown error) and the list of requested URLs. -/
def fallbackResolve (engineVersion : String) (env : Env)
    (net : String → HttpResponse) (jsonParse : String → Option JsValue) :
    Except ResolveError JsValue × List String :=
  if env.testDataProxy.isSome then (Except.ok (JsValue.str "0.0.0"), [])
  else
    let mmp := engineMMP engineVersion
    if mmp.1 == some "4" && mmp.2.1 == some "17" then
      (Except.ok (JsValue.str "5.0.0"), [])
    else
      let pkgURL := fallbackURL engineVersion
      let res := net pkgURL
      if !res.ok then
        (Except.error (ResolveError.fetchFailed res.status res.statusText
          (if res.body == "" then "<empty body>" else res.body)), [pkgURL])
      else
        match jsonParse res.body with
        | none => (Except.error (ResolveError.jsonParseError res.body), [pkgURL])
        | some bodyAsJson =>
          match bodyAsJson.getField "version" with
          | none => (Except.error ResolveError.typeError, [pkgURL])
          | some v => (Except.ok v, [pkgURL])

/-- Lines 11..80: `_getClientVersion(config)`, with the ambient inputs made
explicit.  Returns the produced value (or thrown error) and the list of
requested URLs (empty = no network call). -/
def _getClientVersion (engineVersion : String) (env : Env) (config : EngineConfig)
    (net : String → HttpResponse) (jsonParse : String → Option JsValue) :
    Except ResolveError JsValue × List String :=
  let clientVersion := config.clientVersion.getD "unknown"
  if envTruthy env.prismaClientDataProxyClientVersion then
    (Except.ok (JsValue.str (env.prismaClientDataProxyClientVersion.getD "")), [])
  else
    let vs := clientVersionSplit clientVersion
    if vs.2.isNone && semverRegexTest vs.1 then
      (Except.ok (JsValue.str vs.1), [])
    else if vs.2.isSome || clientVersion == "0.0.0" then
      fallbackResolve engineVersion env net jsonParse
    else
      (Except.error (ResolveError.notImplementedYet unsupportedMessage clientVersion), [])

/-- Lines 87..93: the exported `getClientVersion` just awaits
`_getClientVersion` (the debug log is a no-op for the result). -/
def getClientVersion (engineVersion : String) (env : Env) (config : EngineConfig)
    (net : String → HttpResponse) (jsonParse : String → Option JsValue) :
    Except ResolveError JsValue × List String :=
  _getClientVersion engineVersion env config net jsonParse

/-- A network stub for contexts in which no request must be issued. -/
def noNet : String → HttpResponse :=
  fun _ => ⟨500, "", ""⟩

/-- A parse stub for contexts in which no parsing happens. -/
def noParse : String → Option JsValue :=
  fun _ => none


theorem splitChar_ne_nil (sep : Char) (l : List Char) : splitChar sep l ≠ [] := by
  cases l with
  | nil => simp [splitChar]
  | cons c cs =>
    by_cases hc : c == sep
    · simp [splitChar, hc]
    · cases hrest : splitChar sep cs with
      | nil => simp [splitChar, hc, hrest]
      | cons r rs => simp [splitChar, hc, hrest]

theorem splitChar_head (sep : Char) (l : List Char) :
    (splitChar sep l).get? 0 = some (l.takeWhile (fun c => c != sep)) := by
  induction l with
  | nil => simp [splitChar]
  | cons c cs ih =>
    by_cases hc : c = sep
    · have hb : (c == sep) = true := by simpa using hc
      have hbne : (c != sep) = false := by simp [bne, hb]
      simp [splitChar, hb, List.takeWhile, hbne]
    · have hb : (c == sep) = false := by simpa using hc
      have hbne : (c != sep) = true := by simp [bne, hb]
      cases hrest : splitChar sep cs with
      | nil => exact absurd hrest (splitChar_ne_nil sep cs)
      | cons r rs =>
        have h0 := ih
        rw [hrest] at h0
        simp only [List.get?] at h0
        injection h0 with h0'
        simp [splitChar, hb, hrest, List.takeWhile, hbne, h0']

theorem splitChar_of_not_mem (sep : Char) (l : List Char) (h : sep ∉ l) :
    splitChar sep l = [l] := by
  induction l with
  | nil => simp [splitChar]
  | cons c cs ih =>
    have hc : ¬ c = sep := fun hh => h (hh ▸ List.mem_cons_self c cs)
    have hcs : sep ∉ cs := fun hh => h (List.mem_cons_of_mem c hh)
    have hc2 : (c == sep) = false := by simpa using hc
    simp [splitChar, hc2, ih hcs]

theorem splitChar_get1_of_mem (sep : Char) (l : List Char) (h : sep ∈ l) :
    (splitChar sep l).get? 1 =
      some (((l.dropWhile (fun c => c != sep)).tail).takeWhile (fun c => c != sep)) := by
  induction l with
  | nil => exact absurd h (List.not_mem_nil sep)
  | cons c cs ih =>
    by_cases hc : c = sep
    · have hb : (c == sep) = true := by simpa using hc
      have hbne : (c != sep) = false := by simp [bne, hb]
      have hd : List.dropWhile (fun c => c != sep) (c :: cs) = c :: cs := by
        simp [List.dropWhile, hbne]
      simp only [splitChar, hb, if_true, hd, List.tail_cons, List.get?]
      exact splitChar_head sep cs
    · have hb : (c == sep) = false := by simpa using hc
      have hbne : (c != sep) = true := by simp [bne, hb]
      have hmem : sep ∈ cs := by
        cases h with
        | head => exact absurd rfl hc
        | tail _ hh => exact hh
      cases hrest : splitChar sep cs with
      | nil => exact absurd hrest (splitChar_ne_nil sep cs)
      | cons r rs =>
        have hd : List.dropWhile (fun c => c != sep) (c :: cs) =
            List.dropWhile (fun c => c != sep) cs := by
          simp [List.dropWhile, hbne]
        have h1 := ih hmem
        rw [hrest] at h1
        simp only [List.get?] at h1
        simp only [splitChar, hb, if_false, Bool.false_eq_true, hrest, List.get?, hd]
        exact h1

theorem jsSplit_of_not_mem (s : String) (sep : Char) (h : sep ∉ s.data) :
    jsSplit s sep = [s] := by
  simp [jsSplit, splitChar_of_not_mem sep s.data h]

theorem clientVersionSplit_of_not_mem (cv : String) (h : '-' ∉ cv.data) :
    clientVersionSplit cv = (cv, none) := by
  simp [clientVersionSplit, jsSplit_of_not_mem cv '-' h]

theorem clientVersionSplit_snd_of_mem (cv : String) (h : '-' ∈ cv.data) :
    (clientVersionSplit cv).2 =
      some (String.mk (((cv.data.dropWhile (fun c => c != '-')).tail).takeWhile
        (fun c => c != '-'))) := by
  simp only [clientVersionSplit, jsSplit, List.get?_map, splitChar_get1_of_mem '-' cv.data h,
    Option.map_some']

theorem clientVersionSplit_snd_isSome_of_mem (cv : String) (h : '-' ∈ cv.data) :
    (clientVersionSplit cv).2.isSome = true := by
  rw [clientVersionSplit_snd_of_mem cv h]
  rfl

/-- The spec's `UpstreamFetchError` classification: the errors arising from
the registry interaction (bad HTTP status, or a body that fails to parse),
as opposed to the version-format error and the `TypeError` of the
property access at line 73. -/
def ResolveError.isUpstreamFetch : ResolveError → Bool
  | .fetchFailed _ _ _ => true
  | .jsonParseError _ => true
  | .notImplementedYet _ _ => false
  | .typeError => false

/-- Both branches of the fallback trigger (`suffix !== undefined ||
clientVersion === '0.0.0'`, line 29) lead from `_getClientVersion` into the
fallback path, when the override variable is unset. -/
theorem routes_to_fallback (engineVersion : String) (env : Env)
    (config : EngineConfig) (net : String → HttpResponse)
    (jsonParse : String → Option JsValue) (cv : String)
    (hcv : config.clientVersion = some cv)
    (hforced : env.prismaClientDataProxyClientVersion = none)
    (hroute : '-' ∈ cv.data ∨ cv = "0.0.0") :
    _getClientVersion engineVersion env config net jsonParse =
      fallbackResolve engineVersion env net jsonParse := by
  cases hroute with
  | inl hmem =>
    obtain ⟨x, hx⟩ :=
      Option.isSome_iff_exists.mp (clientVersionSplit_snd_isSome_of_mem cv hmem)
    simp [_getClientVersion, hcv, hforced, envTruthy, hx]
  | inr heq =>
    subst heq
    have h1 : clientVersionSplit "0.0.0" = ("0.0.0", none) := by decide
    have h2 : semverRegexTest "0.0.0" = false := by decide
    simp [_getClientVersion, hcv, hforced, envTruthy, h1, h2]

/-- When the engine's major.minor is not the `4.17` pin, the boolean pin
condition at line 41 evaluates to false. -/
theorem pin_cond_false (engineVersion : String)
    (h : ¬((engineMMP engineVersion).1 = some "4" ∧
        (engineMMP engineVersion).2.1 = some "17")) :
    ((engineMMP engineVersion).1 == some "4" &&
      (engineMMP engineVersion).2.1 == some "17") = false := by
  by_cases h4 : (engineMMP engineVersion).1 = some "4"
  · by_cases h17 : (engineMMP engineVersion).2.1 = some "17"
    · exact absurd ⟨h4, h17⟩ h
    · simp [h17]
  · simp [h4]

/-- C1: for every `clientVersion` string that contains no hyphen and
matches `^[1-9][0-9]*\.[0-9]+\.[0-9]+$`, with the forced-version override
unset, the resolver returns that string unchanged and performs no network
call. -/
theorem c1_fast_path_returns_version_unchanged (engineVersion : String)
    (env : Env) (config : EngineConfig) (net : String → HttpResponse)
    (jsonParse : String → Option JsValue) (cv : String)
    (hcv : config.clientVersion = some cv)
    (hforced : env.prismaClientDataProxyClientVersion = none)
    (hnohyphen : '-' ∉ cv.data)
    (hsemver : semverRegexTest cv = true) :
    _getClientVersion engineVersion env config net jsonParse =
      (Except.ok (JsValue.str cv), []) := by
  have hsplit := clientVersionSplit_of_not_mem cv hnohyphen
  simp [_getClientVersion, hcv, hforced, envTruthy, hsplit, hsemver]

/-- Witness for C1 at `clientVersion = "1.2.3"`. -/
theorem c1_witness :
    _getClientVersion "4.16.2" ⟨none, none⟩ ⟨some "1.2.3"⟩ noNet noParse =
      (Except.ok (JsValue.str "1.2.3"), []) :=
  c1_fast_path_returns_version_unchanged "4.16.2" ⟨none, none⟩ ⟨some "1.2.3"⟩
    noNet noParse "1.2.3" rfl rfl (by decide) (by decide)

/-- C2 counterexample: with the override variable set to the empty string
(a defined value) and `clientVersion = "1.2.3"`, the resolver does not
return the override value `""` — the truthiness check at line 16 skips an
empty override, and the fast path returns `"1.2.3"` instead. -/
theorem c2_counterexample :
    (_getClientVersion "4.16.2" ⟨some "", none⟩ ⟨some "1.2.3"⟩ noNet noParse).1 =
        Except.ok (JsValue.str "1.2.3") ∧ ("1.2.3" : String) ≠ "" :=
  ⟨rfl, by decide⟩

/-- C2 (amended): for every NON-EMPTY value of the forced-version override
variable, the resolver returns that value exactly, regardless of the client
version, the test-mode flag, the engine constant and the registry, and
performs no network call; an override set to the empty string is ignored
because line 16 tests JS truthiness, not definedness. -/
theorem c2_amended_nonempty_override_returned (engineVersion : String)
    (env : Env) (config : EngineConfig) (net : String → HttpResponse)
    (jsonParse : String → Option JsValue) (s : String)
    (hset : env.prismaClientDataProxyClientVersion = some s)
    (hne : s ≠ "") :
    _getClientVersion engineVersion env config net jsonParse =
      (Except.ok (JsValue.str s), []) := by
  have ht : envTruthy (some s) = true := by
    simp [envTruthy, hne]
  simp [_getClientVersion, hset, ht]

/-- Witness for the amended C2: override `"9.9.9"`, everything else set to
exercise other paths. -/
theorem c2_amended_witness :
    _getClientVersion "4.17.2" ⟨some "9.9.9", some "x"⟩ ⟨some "1.2.3-dev"⟩
        noNet noParse = (Except.ok (JsValue.str "9.9.9"), []) :=
  c2_amended_nonempty_override_returned "4.17.2" ⟨some "9.9.9", some "x"⟩
    ⟨some "1.2.3-dev"⟩ noNet noParse "9.9.9" rfl (by decide)

/-- C3: a `clientVersion` with no hyphen that fails the semver regex and is
not `"0.0.0"`, with the override unset, makes the resolver fail with the
version-format error carrying the original string, with no network call. -/
theorem c3_unsupported_format_error (engineVersion : String) (env : Env)
    (config : EngineConfig) (net : String → HttpResponse)
    (jsonParse : String → Option JsValue) (cv : String)
    (hcv : config.clientVersion = some cv)
    (hforced : env.prismaClientDataProxyClientVersion = none)
    (hnohyphen : '-' ∉ cv.data)
    (hsemver : semverRegexTest cv = false)
    (hsentinel : cv ≠ "0.0.0") :
    _getClientVersion engineVersion env config net jsonParse =
      (Except.error (ResolveError.notImplementedYet unsupportedMessage cv), []) := by
  have hsplit := clientVersionSplit_of_not_mem cv hnohyphen
  simp [_getClientVersion, hcv, hforced, envTruthy, hsplit, hsemver, hsentinel]

/-- Witness for C3 at `clientVersion = "abc"`: the error carries `"abc"`. -/
theorem c3_witness :
    _getClientVersion "4.16.2" ⟨none, none⟩ ⟨some "abc"⟩ noNet noParse =
      (Except.error (ResolveError.notImplementedYet unsupportedMessage "abc"), []) :=
  c3_unsupported_format_error "4.16.2" ⟨none, none⟩ ⟨some "abc"⟩ noNet noParse
    "abc" rfl rfl (by decide) (by decide) (by decide)

/-- C9: with `config.clientVersion` absent and the override unset, the
defaulted value `"unknown"` has no hyphen, fails the regex and is not the
sentinel, so the resolver always fails with the version-format error
carrying `"unknown"`, with no network call. -/
theorem c9_missing_client_version_fails_unknown (engineVersion : String)
    (env : Env) (config : EngineConfig) (net : String → HttpResponse)
    (jsonParse : String → Option JsValue)
    (hcv : config.clientVersion = none)
    (hforced : env.prismaClientDataProxyClientVersion = none) :
    _getClientVersion engineVersion env config net jsonParse =
      (Except.error (ResolveError.notImplementedYet unsupportedMessage "unknown"), []) := by
  have hsplit : clientVersionSplit "unknown" = ("unknown", none) := by decide
  have hsemver : semverRegexTest "unknown" = false := by decide
  have hsentinel : ("unknown" : String) ≠ "0.0.0" := by decide
  simp [_getClientVersion, hcv, hforced, envTruthy, hsplit, hsemver, hsentinel]

/-- Witness for C9: absent client version, test-mode set (irrelevant). -/
theorem c9_witness :
    _getClientVersion "4.16.2" ⟨none, some ""⟩ ⟨none⟩ noNet noParse =
      (Except.error (ResolveError.notImplementedYet unsupportedMessage "unknown"), []) :=
  c9_missing_client_version_fails_unknown "4.16.2" ⟨none, some ""⟩ ⟨none⟩
    noNet noParse rfl rfl

/-- C6: every `clientVersion` that routes to the fallback path (a hyphen
present, or exactly `"0.0.0"`), with the test-mode flag defined to any
value and the override unset, makes the resolver return `"0.0.0"` with no
network call. -/
theorem c6_test_mode_returns_sentinel (engineVersion : String) (env : Env)
    (config : EngineConfig) (net : String → HttpResponse)
    (jsonParse : String → Option JsValue) (cv t : String)
    (hcv : config.clientVersion = some cv)
    (hforced : env.prismaClientDataProxyClientVersion = none)
    (htest : env.testDataProxy = some t)
    (hroute : '-' ∈ cv.data ∨ cv = "0.0.0") :
    _getClientVersion engineVersion env config net jsonParse =
      (Except.ok (JsValue.str "0.0.0"), []) := by
  rw [routes_to_fallback engineVersion env config net jsonParse cv hcv hforced hroute]
  simp [fallbackResolve, htest]

/-- Witness for C6 at `clientVersion = "1.2.3-dev.7"`, test flag `"1"`. -/
theorem c6_witness :
    _getClientVersion "4.16.2" ⟨none, some "1"⟩ ⟨some "1.2.3-dev.7"⟩ noNet noParse =
      (Except.ok (JsValue.str "0.0.0"), []) :=
  c6_test_mode_returns_sentinel "4.16.2" ⟨none, some "1"⟩ ⟨some "1.2.3-dev.7"⟩
    noNet noParse "1.2.3-dev.7" "1" rfl rfl rfl (Or.inl (by decide))

/-- C7: when the engine constant's first-hyphen-stripped version has major
component `"4"` and minor component `"17"`, any pre-release client version
(override and test-mode unset) resolves to the hard-coded `"5.0.0"` with no
network call. -/
theorem c7_engine_4_17_pins_5_0_0 (engineVersion : String) (env : Env)
    (config : EngineConfig) (net : String → HttpResponse)
    (jsonParse : String → Option JsValue) (cv : String)
    (hcv : config.clientVersion = some cv)
    (hforced : env.prismaClientDataProxyClientVersion = none)
    (htest : env.testDataProxy = none)
    (hpre : '-' ∈ cv.data)
    (hmajor : (engineMMP engineVersion).1 = some "4")
    (hminor : (engineMMP engineVersion).2.1 = some "17") :
    _getClientVersion engineVersion env config net jsonParse =
      (Except.ok (JsValue.str "5.0.0"), []) := by
  rw [routes_to_fallback engineVersion env config net jsonParse cv hcv hforced
    (Or.inl hpre)]
  simp [fallbackResolve, htest, hmajor, hminor]

/-- Witness for C7 at engine constant `"4.17.2"` and client version
`"1.2.3-dev.1"`. -/
theorem c7_witness :
    _getClientVersion "4.17.2" ⟨none, none⟩ ⟨some "1.2.3-dev.1"⟩ noNet noParse =
      (Except.ok (JsValue.str "5.0.0"), []) :=
  c7_engine_4_17_pins_5_0_0 "4.17.2" ⟨none, none⟩ ⟨some "1.2.3-dev.1"⟩ noNet
    noParse "1.2.3-dev.1" rfl rfl rfl (by decide) (by decide) (by decide)

/-- C8 counterexample: for `clientVersion = "1.2.3-dev-4"` the destructured
suffix is `"dev"` — the segment between the first and the second hyphen —
not `"dev-4"` as the claim states: JS `split('-')` splits on every hyphen
and the destructuring takes the array's second element. -/
theorem c8_counterexample :
    (clientVersionSplit "1.2.3-dev-4").2 ≠ some "dev-4" ∧
    (clientVersionSplit "1.2.3-dev-4").2 = some "dev" := by
  exact ⟨by decide, by decide⟩

/-- C8 (amended): a `clientVersion` containing hyphens is split on every
hyphen and the destructured suffix is the segment between the first and the
second hyphen (for `"1.2.3-dev-4"` it is `"dev"`); any version containing a
hyphen still routes to the fallback path. -/
theorem c8_amended_split_every_hyphen (cv : String) (hmem : '-' ∈ cv.data) :
    (clientVersionSplit cv).2 =
      some (String.mk (((cv.data.dropWhile (fun c => c != '-')).tail).takeWhile
        (fun c => c != '-'))) ∧
    ∀ (engineVersion : String) (env : Env) (config : EngineConfig)
      (net : String → HttpResponse) (jsonParse : String → Option JsValue),
      config.clientVersion = some cv →
      env.prismaClientDataProxyClientVersion = none →
      _getClientVersion engineVersion env config net jsonParse =
        fallbackResolve engineVersion env net jsonParse := by
  refine ⟨clientVersionSplit_snd_of_mem cv hmem, ?_⟩
  intro engineVersion env config net jsonParse hcv hforced
  exact routes_to_fallback engineVersion env config net jsonParse cv hcv hforced
    (Or.inl hmem)

/-- Witness for the amended C8 at `"1.2.3-dev-4"`: the suffix is `"dev"`
and the resolver takes the fallback path. -/
theorem c8_amended_witness :
    (clientVersionSplit "1.2.3-dev-4").2 = some "dev" ∧
    _getClientVersion "4.16.2" ⟨none, none⟩ ⟨some "1.2.3-dev-4"⟩ noNet noParse =
      fallbackResolve "4.16.2" ⟨none, none⟩ noNet noParse := by
  have h := c8_amended_split_every_hyphen "1.2.3-dev-4" (by decide)
  exact ⟨h.1, h.2 "4.16.2" ⟨none, none⟩ ⟨some "1.2.3-dev-4"⟩ noNet noParse rfl rfl⟩

/-- On the fallback path with the test flag unset and the engine not on the
`4.17` pin, `fallbackResolve` is exactly the fetch-then-parse-then-extract
sequence of lines 47..73 against `fallbackURL`. -/
theorem fallbackResolve_request (engineVersion : String) (env : Env)
    (net : String → HttpResponse) (jsonParse : String → Option JsValue)
    (htest : env.testDataProxy = none)
    (hnotpin : ¬((engineMMP engineVersion).1 = some "4" ∧
        (engineMMP engineVersion).2.1 = some "17")) :
    fallbackResolve engineVersion env net jsonParse =
      (let res := net (fallbackURL engineVersion)
       if !res.ok then
         (Except.error (ResolveError.fetchFailed res.status res.statusText
           (if res.body == "" then "<empty body>" else res.body)),
          [fallbackURL engineVersion])
       else
         match jsonParse res.body with
         | none => (Except.error (ResolveError.jsonParseError res.body),
             [fallbackURL engineVersion])
         | some j =>
           match j.getField "version" with
           | none => (Except.error ResolveError.typeError,
               [fallbackURL engineVersion])
           | some v => (Except.ok v, [fallbackURL engineVersion])) := by
  have hpin := pin_cond_false engineVersion hnotpin
  simp [fallbackResolve, htest, hpin]

/-- C4: whenever the fallback path issues its registry request, the
resolver fails with one of the registry errors exactly when the response
status is non-2xx or the body fails to parse; a non-2xx response yields the
error carrying status, status text and the body text (with the
`<empty body>` placeholder), and a parse failure yields the distinguished
parse error carrying the unparseable body. -/
theorem c4_upstream_fetch_error_iff (engineVersion : String) (env : Env)
    (config : EngineConfig) (net : String → HttpResponse)
    (jsonParse : String → Option JsValue) (cv : String)
    (hcv : config.clientVersion = some cv)
    (hforced : env.prismaClientDataProxyClientVersion = none)
    (htest : env.testDataProxy = none)
    (hroute : '-' ∈ cv.data ∨ cv = "0.0.0")
    (hnotpin : ¬((engineMMP engineVersion).1 = some "4" ∧
        (engineMMP engineVersion).2.1 = some "17")) :
    ((∃ e, (_getClientVersion engineVersion env config net jsonParse).1 =
        Except.error e ∧ e.isUpstreamFetch = true) ↔
      ((net (fallbackURL engineVersion)).ok = false ∨
        jsonParse (net (fallbackURL engineVersion)).body = none)) ∧
    ((net (fallbackURL engineVersion)).ok = false →
      _getClientVersion engineVersion env config net jsonParse =
        (Except.error (ResolveError.fetchFailed
          (net (fallbackURL engineVersion)).status
          (net (fallbackURL engineVersion)).statusText
          (if (net (fallbackURL engineVersion)).body == "" then "<empty body>"
           else (net (fallbackURL engineVersion)).body)),
         [fallbackURL engineVersion])) ∧
    ((net (fallbackURL engineVersion)).ok = true →
      jsonParse (net (fallbackURL engineVersion)).body = none →
      _getClientVersion engineVersion env config net jsonParse =
        (Except.error (ResolveError.jsonParseError
          (net (fallbackURL engineVersion)).body),
         [fallbackURL engineVersion])) := by
  rw [routes_to_fallback engineVersion env config net jsonParse cv hcv hforced
    hroute, fallbackResolve_request engineVersion env net jsonParse htest hnotpin]
  rcases Bool.eq_false_or_eq_true (net (fallbackURL engineVersion)).ok with hok | hok
  · cases hparse : jsonParse (net (fallbackURL engineVersion)).body with
    | none => simp [hok, hparse, ResolveError.isUpstreamFetch]
    | some j =>
      cases hfield : j.getField "version" with
      | none => simp [hok, hparse, hfield, ResolveError.isUpstreamFetch]
      | some v => simp [hok, hparse, hfield, ResolveError.isUpstreamFetch]
  · simp [hok, ResolveError.isUpstreamFetch]

/-- A mocked 404 registry response with body text `"not found"`. -/
def mockNet404 : String → HttpResponse :=
  fun _ => ⟨404, "Not Found", "not found"⟩

/-- Witness for C4: engine `"4.18.0"`, pre-release client `"1.2.3-dev"`, a
mocked 404 with body `"not found"`: the resolver fails with the fetch
error carrying 404, the status text and the body, after one request. -/
theorem c4_witness :
    _getClientVersion "4.18.0" ⟨none, none⟩ ⟨some "1.2.3-dev"⟩ mockNet404 noParse =
      (Except.error (ResolveError.fetchFailed 404 "Not Found" "not found"),
        ["https://unpkg.com/prisma@%3C=4.18.0/package.json"]) := by
  have h := c4_upstream_fetch_error_iff "4.18.0" ⟨none, none⟩ ⟨some "1.2.3-dev"⟩
    mockNet404 noParse "1.2.3-dev" rfl rfl rfl (Or.inl (by decide)) (by decide)
  exact h.2.1 rfl

/-- The body of the mocked registry response `{"version":"4.18.0"}`. -/
def mockBody418 : String := "\x7b\"version\":\"4.18.0\"\x7d"

/-- A mocked 200 registry response carrying `mockBody418`. -/
def mockNet418 : String → HttpResponse :=
  fun _ => ⟨200, "OK", mockBody418⟩

/-- A parse oracle that parses exactly `mockBody418` the way `JSON.parse`
does, and fails on everything else. -/
def mockParse418 : String → Option JsValue :=
  fun s =>
    if s == mockBody418 then
      some (JsValue.obj [("version", JsValue.str "4.18.0")])
    else none

/-- C5 counterexample: for engine constant `"4.18.0"`, a pre-release client
version and the mocked 200 response, the single URL requested is NOT the
claimed `https://unpkg.com/prisma@<=4.18.0/package.json`: line 105 applies
`encodeURI`, which percent-encodes the `<` as `%3C`. -/
theorem c5_counterexample :
    (_getClientVersion "4.18.0" ⟨none, none⟩ ⟨some "1.2.3-dev"⟩ mockNet418
        mockParse418).2 ≠ ["https://unpkg.com/prisma@<=4.18.0/package.json"] ∧
    (_getClientVersion "4.18.0" ⟨none, none⟩ ⟨some "1.2.3-dev"⟩ mockNet418
        mockParse418).2 = ["https://unpkg.com/prisma@%3C=4.18.0/package.json"] :=
  ⟨by decide, by decide⟩

/-- C5 (amended): on the fallback path (override and test-mode unset,
engine not on the `4.17` pin), the resolver issues exactly one GET to
`fallbackURL`, i.e. the `encodeURI` image of
`https://unpkg.com/prisma@<=major.minor.patch/package.json` (the `<`
percent-encoded as `%3C`), and on a 2xx response whose body parses as a
JSON object it returns the payload's `version` field (or `undefined` when
the object lacks one; a `null` payload instead throws a `TypeError` at
line 73). -/
theorem c5_amended_registry_resolution (engineVersion : String) (env : Env)
    (config : EngineConfig) (net : String → HttpResponse)
    (jsonParse : String → Option JsValue) (cv : String)
    (fields : List (String × JsValue))
    (hcv : config.clientVersion = some cv)
    (hforced : env.prismaClientDataProxyClientVersion = none)
    (htest : env.testDataProxy = none)
    (hroute : '-' ∈ cv.data ∨ cv = "0.0.0")
    (hnotpin : ¬((engineMMP engineVersion).1 = some "4" ∧
        (engineMMP engineVersion).2.1 = some "17"))
    (hok : (net (fallbackURL engineVersion)).ok = true)
    (hparse : jsonParse (net (fallbackURL engineVersion)).body =
        some (JsValue.obj fields)) :
    _getClientVersion engineVersion env config net jsonParse =
      (Except.ok (JsValue.objLookup fields "version"), [fallbackURL engineVersion]) ∧
    fallbackURL engineVersion =
      encodeURI ("https://unpkg.com/prisma@<=" ++ jsStr (engineMMP engineVersion).1
        ++ "." ++ jsStr (engineMMP engineVersion).2.1 ++ "."
        ++ jsStr (engineMMP engineVersion).2.2 ++ "/package.json") := by
  constructor
  · rw [routes_to_fallback engineVersion env config net jsonParse cv hcv hforced
      hroute, fallbackResolve_request engineVersion env net jsonParse htest hnotpin]
    simp [hok, hparse, JsValue.getField]
  · rfl

/-- Witness for the amended C5: engine `"4.18.0"` and the mocked
`{"version":"4.18.0"}` 200 response resolve to `"4.18.0"` through the
percent-encoded URL. -/
theorem c5_amended_witness :
    _getClientVersion "4.18.0" ⟨none, none⟩ ⟨some "1.2.3-dev"⟩ mockNet418
        mockParse418 =
      (Except.ok (JsValue.str "4.18.0"),
        ["https://unpkg.com/prisma@%3C=4.18.0/package.json"]) := by
  have h := c5_amended_registry_resolution "4.18.0" ⟨none, none⟩
    ⟨some "1.2.3-dev"⟩ mockNet418 mockParse418 "1.2.3-dev"
    [("version", JsValue.str "4.18.0")] rfl rfl rfl
    (Or.inl (by decide)) (by decide) rfl rfl
  exact h.1

/-- C10: on the fallback path, a 2xx response whose body parses as a JSON
object with no `version` field does not fail: line 73 returns the missing
property's value, i.e. `undefined`, with no validation. -/
theorem c10_missing_version_field_returns_undefined (engineVersion : String)
    (env : Env) (config : EngineConfig) (net : String → HttpResponse)
    (jsonParse : String → Option JsValue) (cv : String)
    (fields : List (String × JsValue))
    (hcv : config.clientVersion = some cv)
    (hforced : env.prismaClientDataProxyClientVersion = none)
    (htest : env.testDataProxy = none)
    (hroute : '-' ∈ cv.data ∨ cv = "0.0.0")
    (hnotpin : ¬((engineMMP engineVersion).1 = some "4" ∧
        (engineMMP engineVersion).2.1 = some "17"))
    (hok : (net (fallbackURL engineVersion)).ok = true)
    (hparse : jsonParse (net (fallbackURL engineVersion)).body =
        some (JsValue.obj fields))
    (hnofield : ∀ p ∈ fields, p.1 ≠ "version") :
    _getClientVersion engineVersion env config net jsonParse =
      (Except.ok JsValue.undefined, [fallbackURL engineVersion]) := by
  have hfind : fields.find? (fun p => p.1 == "version") = none := by
    rw [List.find?_eq_none]
    intro p hp
    simp [hnofield p hp]
  rw [routes_to_fallback engineVersion env config net jsonParse cv hcv hforced
    hroute, fallbackResolve_request engineVersion env net jsonParse htest hnotpin]
  simp [hok, hparse, JsValue.getField, JsValue.objLookup, hfind]

/-- The body of a mocked registry response without a `version` field. -/
def mockBodyNoVersion : String := "\x7b\"name\":\"prisma\"\x7d"

/-- A mocked 200 registry response carrying `mockBodyNoVersion`. -/
def mockNetNoVersion : String → HttpResponse :=
  fun _ => ⟨200, "OK", mockBodyNoVersion⟩

/-- A parse oracle that parses exactly `mockBodyNoVersion` the way
`JSON.parse` does, and fails on everything else. -/
def mockParseNoVersion : String → Option JsValue :=
  fun s =>
    if s == mockBodyNoVersion then
      some (JsValue.obj [("name", JsValue.str "prisma")])
    else none

/-- Witness for C10: sentinel client `"0.0.0"`, engine `"4.18.0"`, mocked
200 response `{"name":"prisma"}`: the resolver succeeds with `undefined`. -/
theorem c10_witness :
    _getClientVersion "4.18.0" ⟨none, none⟩ ⟨some "0.0.0"⟩ mockNetNoVersion
        mockParseNoVersion =
      (Except.ok JsValue.undefined,
        ["https://unpkg.com/prisma@%3C=4.18.0/package.json"]) := by
  have h := c10_missing_version_field_returns_undefined "4.18.0" ⟨none, none⟩
    ⟨some "0.0.0"⟩ mockNetNoVersion mockParseNoVersion "0.0.0"
    [("name", JsValue.str "prisma")] rfl rfl rfl (Or.inr rfl) (by decide) rfl
    rfl (by intro p hp; simp at hp; simp [hp])
  exact h
